import Mathlib

/-!
Verification of the focus-mode enforcement engine of the Mindful Desktop
Companion repository.

Strings are modelled as lists of Unicode code points (`List Nat`); `codes`
converts a Lean string literal to this representation.  JavaScript string
operations used by the source (`toLowerCase`, `replace(/\.exe$/, '')`,
`replace(/\s+/g, ' ')`, `trim`, `includes`, `split`, regex title parsing)
are embedded as executable functions below, each annotated with the source
location it is translated from.  The whitespace class of `\s` / `trim` is
modelled by its ASCII core (space, tab, LF, VT, FF, CR); all inputs in the
claims are ASCII.
-/

def codes (s : String) : List Nat := s.data.map Char.toNat

/-- ASCII lower-casing of one code point (model of `String.prototype.toLowerCase`
on the ASCII range used throughout the repository). -/
def asciiLower (c : Nat) : Nat := if 65 ≤ c ∧ c ≤ 90 then c + 32 else c

/-- Whitespace class: ASCII core of the JavaScript `\s` class / `trim`. -/
def isWsChar (c : Nat) : Bool := c == 32 || c == 9 || c == 10 || c == 11 || c == 12 || c == 13

/-- Model of `String.prototype.replace(/suf$/, '')` for a fixed suffix:
remove one trailing occurrence of `suf` if present. -/
def stripSuffix (suf s : List Nat) : List Nat :=
  if suf.isSuffixOf s then s.take (s.length - suf.length) else s

/-- Model of `replace(/\s+/g, ' ')`: each maximal run of whitespace becomes
one space (code 32). -/
def collapseWs : List Nat → List Nat
  | [] => []
  | [c] => if isWsChar c then [32] else [c]
  | c :: d :: rest =>
    if isWsChar c && isWsChar d then collapseWs (d :: rest)
    else (if isWsChar c then 32 else c) :: collapseWs (d :: rest)

/-- Drop a trailing run of whitespace (the right half of `trim`). -/
def trimRight : List Nat → List Nat
  | [] => []
  | c :: rest =>
    let r := trimRight rest
    if r.isEmpty then (if isWsChar c then [] else [c]) else c :: r

/-- Model of `String.prototype.trim`. -/
def trimWs (s : List Nat) : List Nat := trimRight (s.dropWhile isWsChar)

def exeSuf : List Nat := codes ".exe"

def appSuf : List Nat := codes ".app"

/-- `normalizeAppName` (src/unnamed/part_001, lines 724-734):
lowercase, strip one trailing `.exe`, then one trailing `.app`, collapse
whitespace runs to one space, trim.  (`if (!name) return ''` is subsumed:
every stage maps the empty list to itself.) -/
def normalizeAppName (s : List Nat) : List Nat :=
  trimWs (collapseWs (stripSuffix appSuf (stripSuffix exeSuf (s.map asciiLower))))

/-- Separator class of the word-split regex `/[-_\s]+/`. -/
def isSepChar (c : Nat) : Bool := c == 45 || c == 95 || isWsChar c

/-- Model of `String.prototype.split(/[-_\s]+/)`: split on maximal runs of
separators; a leading or trailing run contributes an empty word, interior
runs do not (JavaScript regex-split semantics). -/
def splitWords : List Nat → List (List Nat)
  | [] => [[]]
  | [c] => if isSepChar c then [[], []] else [[c]]
  | c :: d :: rest =>
    if isSepChar c && isSepChar d then splitWords (d :: rest)
    else if isSepChar c then [] :: splitWords (d :: rest)
    else
      match splitWords (d :: rest) with
      | w :: ws => (c :: w) :: ws
      | [] => [[c]]

/-- Model of `String.prototype.includes`: `containsSub pat s` holds when
`pat` occurs contiguously inside `s` (`s.includes(pat)` in the source). -/
def containsSub (pat : List Nat) : List Nat → Bool
  | [] => pat.isEmpty
  | c :: rest => pat.isPrefixOf (c :: rest) || containsSub pat rest

/-- One whitelist entry test of `isAppInWhitelist` (src/unnamed/part_001,
lines 742-761): exact match of normalized names, substring containment in
either direction (`includes`), then word-level containment both ways. -/
def entryMatches (napp : List Nat) (e : List Nat) : Bool :=
  let nwl := normalizeAppName e
  napp == nwl || containsSub nwl napp || containsSub napp nwl ||
    (splitWords napp).any (fun appWord =>
      (splitWords nwl).any (fun wlWord =>
        containsSub wlWord appWord || containsSub appWord wlWord))

/-- `isAppInWhitelist` (src/unnamed/part_001, lines 737-762):
`if (!appName) return false`, then `whitelist.some(...)` with the
normalized app name computed once. -/
def isAppInWhitelist (appName : List Nat) (whitelist : List (List Nat)) : Bool :=
  if appName.isEmpty then false
  else whitelist.any (entryMatches (normalizeAppName appName))

/-- `getExecutableName` (src/unnamed/part_001, lines 710-714): the text
after the last `/` or `\` of a path (`path.split(/[/\\]/)` and take the
last piece, which may be empty). -/
def getExecutableName (p : List Nat) : List Nat :=
  (p.reverse.takeWhile (fun c => c != 47 && c != 92)).reverse

/-- `getBundleAppName` (src/unnamed/part_001, lines 717-721): the last
dot-separated segment of a bundle id, falling back to the whole id when
that segment is empty (`parts[parts.length - 1] || bundleId`). -/
def getBundleAppName (b : List Nat) : List Nat :=
  let last := (b.reverse.takeWhile (fun c => c != 46)).reverse
  if last.isEmpty then b else last

def isDashChar (c : Nat) : Bool := c == 45 || c == 8211 || c == 8212

def isDigitChar (c : Nat) : Bool := 48 ≤ c && c ≤ 57

/-- Does one alternative of `(?:\s[-–—]\s|\s\|\s|\s:|\s\d|$)` (other than
`$`) match at the head of the remaining title? -/
def sepMatchAt : List Nat → Bool
  | a :: b :: rest =>
    isWsChar a &&
      (b == 58 || isDigitChar b ||
        (match rest with
         | c :: _ => (isDashChar b || b == 124) && isWsChar c
         | [] => false))
  | _ => false

/-- Lazy scan of `title.match(/^(.*?)(?:\s[-–—]\s|\s\|\s|\s:|\s\d|$)/)`:
return the shortest prefix after which an alternative (or the end of the
string) matches; `none` when the lazy dot is blocked by a line terminator
before any alternative can match (the regex then fails to match). -/
def scanTitle : List Nat → Option (List Nat)
  | [] => some []
  | c :: rest =>
    if sepMatchAt (c :: rest) then some []
    else if c == 10 || c == 13 then none
    else
      match scanTitle rest with
      | some p => some (c :: p)
      | none => none

/-- `extractAppFromTitle` (src/unnamed/part_001, lines 1295-1301, main
process): `'Unknown'` for an empty title, else the trimmed regex capture,
falling back to the trimmed title when the capture is empty or the regex
fails (`appNameMatches?.[1]?.trim() || title.trim()`). -/
def extractAppFromTitle (t : List Nat) : List Nat :=
  if t.isEmpty then codes "Unknown"
  else
    match scanTitle t with
    | some p => let q := trimWs p; if q.isEmpty then trimWs t else q
    | none => trimWs t

/-- The object form of the window samples delivered to the renderer
(`windowInfo`); each field is `none` when the JavaScript value is absent. -/
structure WindowObj where
  title : Option (List Nat)
  ownerName : Option (List Nat)
  ownerPath : Option (List Nat)
  bundleId : Option (List Nat)
  appName : Option (List Nat)
deriving DecidableEq, Repr

/-- `extractAppName` accepts either a plain string or a window-info object. -/
inductive WindowInput where
  | str (s : List Nat)
  | obj (w : WindowObj)
deriving DecidableEq, Repr

/-- JavaScript truthiness for an optional string: `none` and the empty
string are falsy. -/
def truthyOpt : Option (List Nat) → Option (List Nat)
  | some s => if s.isEmpty then none else some s
  | none => none

/-- `extractAppName` (src/unnamed/part_001, lines 690-707, renderer):
candidate list `[path && exec(path), bundleId && bundleApp(bundleId),
owner.name, appName, title].filter(Boolean)`, first survivor normalized;
a string input is normalized directly; empty result when no candidate.
(The `if (!windowInfo) return ''` guard has no object to model.) -/
def extractAppName : WindowInput → List Nat
  | .str s => normalizeAppName s
  | .obj w =>
    let candidates :=
      ([(truthyOpt w.ownerPath).map getExecutableName,
        (truthyOpt w.bundleId).map getBundleAppName,
        w.ownerName, w.appName, w.title].filterMap id).filter (fun c => !c.isEmpty)
    match candidates with
    | c :: _ => normalizeAppName c
    | [] => []

/-- The React state of `FocusModeProvider` (src/unnamed/part_001, lines
567-578) that the enforcement engine reads and writes.  `userId`,
`activeWindowInfo` and the persisted custom image/text are omitted: no
state-machine operation branches on them. -/
structure FocusState where
  isFocusMode : Bool
  whitelist : List (List Nat)
  dimInsteadOfBlock : Bool
  lastActiveWindow : Option (List Nat)
  showingAlert : Bool
  currentAlertApp : Option (List Nat)
  lastNotifiedApp : Option (List Nat)
  currentActiveApp : Option (List Nat)
  isCurrentAppWhitelisted : Bool
deriving DecidableEq, Repr

/-- The `useState` initial values of the provider. -/
def initialFocusState : FocusState :=
  { isFocusMode := false, whitelist := [], dimInsteadOfBlock := true,
    lastActiveWindow := none, showingAlert := false, currentAlertApp := none,
    lastNotifiedApp := none, currentActiveApp := none,
    isCurrentAppWhitelisted := false }

/-- The fixed self-exclusion substrings of the monitor effect
(src/unnamed/part_001, lines 770-772). -/
def isSelfApp (napp : List Nat) : Bool :=
  containsSub (codes "mindful") napp || containsSub (codes "electron") napp ||
    containsSub (codes "desktop-companion") napp

/-- `handleNonWhitelistedApp` (src/unnamed/part_001, lines 874-921), state
part: set the alert app and show the alert (the outgoing popup request and
optional dim effect are reported as an event by the callers). -/
def raiseAlert (s : FocusState) (app : List Nat) : FocusState :=
  { s with currentAlertApp := some app, showingAlert := true }

/-- `currentActiveApp && normalizeAppName(currentActiveApp) ===
normalizeAppName(app)` — the guard shared by `addToWhitelist` and
`removeFromWhitelist`. -/
def curNormEq (s : FocusState) (app : List Nat) : Bool :=
  match s.currentActiveApp with
  | some cur => !cur.isEmpty && (normalizeAppName cur == normalizeAppName app)
  | none => false

/-- The monitor `useEffect` (src/unnamed/part_001, lines 765-788): it
re-runs after every state change of its dependencies, so the model applies
it once after each operation (one application reaches a fixpoint).  The
second component lists the apps for which an alert was raised. -/
def monitorEffect (s : FocusState) : FocusState × List (List Nat) :=
  match s.currentActiveApp with
  | none => (s, [])
  | some cur =>
    if s.isFocusMode = false ∨ cur.isEmpty then (s, [])
    else if isSelfApp (normalizeAppName cur) then (s, [])
    else if isAppInWhitelist cur s.whitelist = false ∧ some cur ≠ s.lastNotifiedApp then
      ({ raiseAlert s cur with lastNotifiedApp := some cur }, [cur])
    else if isAppInWhitelist cur s.whitelist = true ∧ s.showingAlert = true ∧
        s.currentAlertApp = some cur then
      ({ s with showingAlert := false, currentAlertApp := none }, [])
    else (s, [])

/-- `toggleFocusMode` (src/unnamed/part_001, lines 790-829):
`setLastNotifiedApp(null)` happens on BOTH branches; on enabling, the
current app is immediately re-checked (the `setTimeout(..., 500)` raise is
modelled as part of the operation) with no self-exclusion; on disabling,
the active alert is cleared. -/
def toggleFocusMode (s : FocusState) : FocusState × List (List Nat) :=
  let s1 : FocusState := { s with isFocusMode := !s.isFocusMode, lastNotifiedApp := none }
  if s1.isFocusMode then
    match s1.currentActiveApp with
    | some cur =>
      if cur.isEmpty = false ∧ isAppInWhitelist cur s1.whitelist = false then
        ({ raiseAlert s1 cur with lastNotifiedApp := some cur }, [cur])
      else (s1, [])
    | none => (s1, [])
  else ({ s1 with showingAlert := false, currentAlertApp := none }, [])

/-- `addToWhitelist` (src/unnamed/part_001, lines 831-851): append when raw
string absent and non-blank; clear the alert (and reset `lastNotifiedApp`)
when the added entry is the alert app or normalizes like the current app;
mark the current app whitelisted in the latter case. -/
def addToWhitelist (s : FocusState) (app : List Nat) : FocusState × List (List Nat) :=
  if s.whitelist.contains app = false ∧ (trimWs app).isEmpty = false then
    let s1 : FocusState := { s with whitelist := s.whitelist ++ [app] }
    let s2 : FocusState :=
      if s1.currentAlertApp = some app ∨ curNormEq s1 app = true then
        { s1 with showingAlert := false, currentAlertApp := none, lastNotifiedApp := none }
      else s1
    let s3 : FocusState :=
      if curNormEq s2 app = true then { s2 with isCurrentAppWhitelisted := true } else s2
    (s3, [])
  else (s, [])

/-- `removeFromWhitelist` (src/unnamed/part_001, lines 853-868): filter out
the raw entry; when focus mode is on and the removed entry normalizes like
the (non-empty) current app, mark it non-whitelisted and raise a fresh
alert for it. -/
def removeFromWhitelist (s : FocusState) (app : List Nat) : FocusState × List (List Nat) :=
  let s1 : FocusState := { s with whitelist := s.whitelist.filter (fun item => item != app) }
  match s1.currentActiveApp with
  | some cur =>
    if s1.isFocusMode = true ∧ cur.isEmpty = false ∧
        normalizeAppName cur = normalizeAppName app then
      ({ raiseAlert { s1 with isCurrentAppWhitelisted := false } cur with
          lastNotifiedApp := some cur }, [cur])
    else (s1, [])
  | none => (s1, [])

/-- `handleActiveWindowChanged` (src/unnamed/part_001, lines 621-638):
record the window, recompute the current app and its whitelist status. -/
def handleWindowChanged (s : FocusState) (w : WindowInput) : FocusState :=
  let appName := extractAppName w
  { s with currentActiveApp := some appName,
           lastActiveWindow := (match w with | .str t => some t | .obj o => o.title),
           isCurrentAppWhitelisted := isAppInWhitelist appName s.whitelist }

/-- `handleAlertDismiss` (src/unnamed/part_001, lines 954-957). -/
def handleAlertDismiss (s : FocusState) : FocusState :=
  { s with showingAlert := false, currentAlertApp := none }

/-- `handleNotificationDismissed` (src/unnamed/part_001, lines 641-648):
clear the alert when the dismissal detail contains the alert app. -/
def handleNotificationDismissed (s : FocusState) (detail : List Nat) : FocusState :=
  match s.currentAlertApp with
  | some alertApp =>
    if alertApp.isEmpty = false ∧ containsSub alertApp detail = true then
      { s with showingAlert := false, currentAlertApp := none }
    else s
  | none => s

/-- The user commands and sampler callbacks of the focus state machine
(spec §4.4: Enable and Disable are `toggle` from the respective state). -/
inductive FocusOp where
  | toggle
  | window (w : WindowInput)
  | add (app : List Nat)
  | remove (app : List Nat)
  | toggleDim
  | alertDismiss
  | notifDismiss (detail : List Nat)
deriving DecidableEq, Repr

/-- One operation: the handler followed by the monitor effect re-run (its
dependency array covers every field the handlers change).  The second
component lists the apps for which an alert was raised. -/
def stepOp (s : FocusState) (op : FocusOp) : FocusState × List (List Nat) :=
  let h : FocusState × List (List Nat) :=
    match op with
    | .toggle => toggleFocusMode s
    | .window w => (handleWindowChanged s w, [])
    | .add app => addToWhitelist s app
    | .remove app => removeFromWhitelist s app
    | .toggleDim => ({ s with dimInsteadOfBlock := !s.dimInsteadOfBlock }, [])
    | .alertDismiss => (handleAlertDismiss s, [])
    | .notifDismiss d => (handleNotificationDismissed s d, [])
  let m := monitorEffect h.1
  (m.1, h.2 ++ m.2)

/-- Run a sequence of operations from a state. -/
def runOps (s : FocusState) : List FocusOp → FocusState
  | [] => s
  | op :: rest => runOps (stepOp s op).1 rest

def winSlack : WindowInput := .obj ⟨some (codes "general - Slack"), some (codes "Slack"), none, none, none⟩

/-- The main-process alert dispatcher state (src/unnamed/part_001, line
1008: `let lastProcessedNotificationId = null`). -/
structure DispatchState where
  lastProcessedNotificationId : Option (List Nat)
deriving DecidableEq, Repr

def initialDispatchState : DispatchState := ⟨none⟩

/-- The notification id built by `handleNonWhitelistedApp`
(src/unnamed/part_001, line 884): `focus-mode-${appName}-${Date.now()}`. -/
def mkFocusNotificationId (appName ts : List Nat) : List Nat :=
  codes "focus-mode-" ++ appName ++ [45] ++ ts

/-- `showFocusPopup` dedup logic (src/unnamed/part_001, lines 1374-1385):
a truthy id equal to the last processed one makes the call a no-op;
otherwise the id (or, when falsy, a generated `focus-popup-${Date.now()}`,
passed here as `fallbackId`) is recorded and the popup is (re)shown.  The
Boolean result is `true` exactly when the popup surface is driven. -/
def showFocusPopup (st : DispatchState) (notificationId fallbackId : List Nat) :
    DispatchState × Bool :=
  if notificationId.isEmpty = false ∧ st.lastProcessedNotificationId = some notificationId then
    (st, false)
  else
    let eff := if notificationId.isEmpty then fallbackId else notificationId
    (⟨some eff⟩, true)

/-- The built-in fallback image of the popup window (src/unnamed/part_001,
lines 1399 and 1407). -/
def fallbackImageUrl : List Nat :=
  codes "https://images.unsplash.com/photo-1461749280684-dccba630e2f6"

/-- `safeMediaContent.replace(/"/g, '\\"')` (src/unnamed/part_001, line 1403). -/
def escQuotes : List Nat → List Nat
  | [] => []
  | c :: rest => if c == 34 then 92 :: 34 :: escQuotes rest else c :: escQuotes rest

/-- The image finally displayed by the popup window for one request
(src/unnamed/part_001, lines 1399-1410): `safeMediaContent` falls back to
the built-in image when the content is empty; media is rendered only for
`mediaType === 'image'`; the inline `onerror` handler swaps a failing
image for the built-in fallback.  `loadFails` models the load outcome of
the rendered `img` element. -/
def displayedMedia (mediaType mediaContent : List Nat) (loadFails : Bool) :
    Option (List Nat) :=
  let safe := if mediaContent.isEmpty then fallbackImageUrl else mediaContent
  if mediaType = codes "image" ∧ safe.isEmpty = false then
    some (if loadFails then fallbackImageUrl else escQuotes safe)
  else none

/-- The media fields of an outgoing popup request. -/
structure PopupMedia where
  mediaType : List Nat
  mediaContent : List Nat
deriving DecidableEq, Repr

/-- The popup request dispatched by the `FocusModeAlert` mount effect
(src/unnamed/part_001, lines 384-435): with an image URL the component
pre-loads it and dispatches an image request on success but a text-only
request (`mediaType: 'text', mediaContent: ''`) on `img.onerror`; with no
URL it dispatches the text-only request directly. -/
def alertMountRequest (imageUrl : Option (List Nat)) (loadFails : Bool) : PopupMedia :=
  match truthyOpt imageUrl with
  | some url => if loadFails then ⟨codes "text", []⟩ else ⟨codes "image", url⟩
  | none => ⟨codes "text", []⟩


/-- No two adjacent whitespace characters (invariant of `collapseWs` output). -/
def noAdjWs : List Nat → Bool
  | [] => true
  | [_] => true
  | c :: d :: rest => !(isWsChar c && isWsChar d) && noAdjWs (d :: rest)

/-- Every whitespace character is the plain space 32 (invariant of
`collapseWs` output). -/
def wsOnly32 (s : List Nat) : Bool := s.all (fun c => !isWsChar c || c == 32)

/-- Concrete samples used in the scenario traces below. -/
def winChrome : WindowInput := .obj ⟨none, some (codes "Chrome"), none, none, none⟩

def winElectron : WindowInput := .obj ⟨none, some (codes "Electron"), none, none, none⟩

def titleOnlySample : WindowInput :=
  .obj ⟨some (codes "Document1 - Notepad"), none, none, none, none⟩

/-- The trace behind the RemoveFromWhitelist counterexample: watch Slack,
enable focus mode (alert raised, `lastNotifiedApp` set), whitelist the
fuzzily-matching entry `lack` (the monitor clears the alert but
`lastNotifiedApp` is not reset). -/
def removeScenarioState : FocusState :=
  runOps initialFocusState [.window winSlack, .toggle, .add (codes "lack")]

/-! Sanity checks: the embedded functions on the spec's own examples. -/

example : normalizeAppName (codes "Slack.exe") = codes "slack" := by decide
example : normalizeAppName (codes "  My   App.app") = codes "my app" := by decide
example : normalizeAppName (codes "x.app ") = codes "x.app" := by decide
example : normalizeAppName (codes "x.exe.app") = codes "x.exe" := by decide
example : normalizeAppName (codes "x.exe") = codes "x" := by decide
example : normalizeAppName (codes " ") = [] := by decide
example : splitWords (codes "visual-studio code") = [codes "visual", codes "studio", codes "code"] := by decide
example : splitWords (codes "-a") = [[], codes "a"] := by decide
example : containsSub (codes "lack") (codes "slack") = true := by decide
example : containsSub [] (codes "slack") = true := by decide
example : isAppInWhitelist (codes "slack") [codes "Slack"] = true := by decide
example : isAppInWhitelist (codes "slack") [codes "slack messenger"] = true := by decide
example : isAppInWhitelist (codes "slack") [codes "lack"] = true := by decide
example : isAppInWhitelist (codes "slack") [] = false := by decide
example : getExecutableName (codes "/Apps/Slack.exe") = codes "Slack.exe" := by decide
example : getBundleAppName (codes "com.tinyspeck.slackmacgap") = codes "slackmacgap" := by decide
example : extractAppFromTitle (codes "Document1 - Notepad") = codes "Document1" := by decide
example : extractAppFromTitle (codes "Photos | Viewer") = codes "Photos" := by decide
example : extractAppFromTitle (codes "App : page") = codes "App" := by decide
example : extractAppFromTitle (codes "App: page") = codes "App: page" := by decide
example : extractAppFromTitle (codes "Chrome 2 tabs") = codes "Chrome" := by decide
example : extractAppFromTitle [] = codes "Unknown" := by decide
example :
    extractAppName (.obj ⟨some (codes "x"), some (codes "Slack"),
      some (codes "/Apps/Slack.exe"), none, none⟩) = codes "slack" := by decide
example : extractAppName (.str (codes "Chrome")) = codes "chrome" := by decide
example : extractAppName winSlack = codes "slack" := by decide
example :
    (runOps initialFocusState [.window winSlack, .toggle]).showingAlert = true := by decide
example :
    (runOps initialFocusState [.window winSlack, .toggle]).currentAlertApp
      = some (codes "slack") := by decide
example :
    (runOps initialFocusState [.window winSlack, .toggle, .add (codes "Slack")]).showingAlert
      = false := by decide
example : displayedMedia (codes "text") [] false = none := by decide

/-- The empty string is a substring of every string (`s.includes('')` is
always true in JavaScript). -/
theorem containsSub_nil (s : List Nat) : containsSub [] s = true := by
  cases s <;> simp [containsSub, List.isPrefixOf]

/-- C4: dispatching two alert requests with identical id (ids as the code
constructs them, `focus-mode-<app>-<timestamp>`) produces exactly one
observable effect on the overlay surface: the first call drives the popup,
the second finds its id equal to the last dispatched one and is a no-op. -/
theorem c4_dispatch_dedup (st : DispatchState) (app ts fb1 fb2 : List Nat)
    (hfresh : st.lastProcessedNotificationId ≠ some (mkFocusNotificationId app ts)) :
    (showFocusPopup st (mkFocusNotificationId app ts) fb1).2 = true ∧
      (showFocusPopup (showFocusPopup st (mkFocusNotificationId app ts) fb1).1
        (mkFocusNotificationId app ts) fb2).2 = false := by
  have hne : (mkFocusNotificationId app ts).isEmpty = false := by
    have : codes "focus-mode-" = [102, 111, 99, 117, 115, 45, 109, 111, 100, 101, 45] := by
      decide
    simp [mkFocusNotificationId, this]
  constructor
  · simp [showFocusPopup, hne, hfresh]
  · simp [showFocusPopup, hne, hfresh]

/-- C4 witness: a concrete double dispatch of the same id from the initial
dispatcher state. -/
theorem c4_dispatch_dedup_witness :
    (showFocusPopup initialDispatchState
        (mkFocusNotificationId (codes "slack") (codes "171")) (codes "g1")).2 = true ∧
      (showFocusPopup
          (showFocusPopup initialDispatchState
            (mkFocusNotificationId (codes "slack") (codes "171")) (codes "g1")).1
          (mkFocusNotificationId (codes "slack") (codes "171")) (codes "g2")).2 = false :=
  c4_dispatch_dedup initialDispatchState (codes "slack") (codes "171")
    (codes "g1") (codes "g2") (by decide)

/-- C5 counterexample: on a sample whose only field is the title
`"Document1 - Notepad"`, the renderer's `extractAppName` does not parse the
title at separators — it normalizes the whole title, yielding
`"document1 - notepad"`, not `"document1"`. -/
theorem c5_title_only_sample_counterexample :
    extractAppName titleOnlySample = codes "document1 - notepad" ∧
      extractAppName titleOnlySample ≠ codes "document1" := by decide

/-- C5 amended: `extractAppName` tries executable basename, bundle-id
segment, owner name, the sampler-provided `appName` field, then the RAW
title (normalized, not parsed); separator parsing lives in the main
process's `extractAppFromTitle` (which feeds the `appName` field) and its
separators are `" - "` (and en/em dash), `" | "`, space-colon and
space-digit — not `": "` or a bare digit.  On the spec's sample the title
route yields `"document1 - notepad"`, while `extractAppFromTitle` yields
`"Document1"`, which normalizes to `"document1"`. -/
theorem c5_extraction_pipeline_amended :
    extractAppName titleOnlySample = codes "document1 - notepad" ∧
      extractAppFromTitle (codes "Document1 - Notepad") = codes "Document1" ∧
      normalizeAppName (codes "Document1") = codes "document1" ∧
      extractAppName (.obj ⟨some (codes "Document1 - Notepad"), some (codes "Notepad"),
        some (codes "C:\\Windows\\notepad.exe"), none, none⟩) = codes "notepad" ∧
      extractAppFromTitle (codes "App: page") = codes "App: page" ∧
      extractAppFromTitle (codes "App2") = codes "App2" := by decide

/-- C8 counterexample: when the popup window's custom image fails to load
(`loadFails = true`), the overlay surface does not show a text-only alert —
the inline `onerror` handler substitutes the built-in fallback image. -/
theorem c8_overlay_fallback_counterexample :
    displayedMedia (codes "image") (codes "blob:custom") true = some fallbackImageUrl ∧
      displayedMedia (codes "image") (codes "blob:custom") true ≠ none := by decide

/-- C8 amended: a failed image load is silent but not text-only everywhere:
the popup window substitutes the built-in fallback image for any image
request whose load fails, while the renderer-side `FocusModeAlert`
pre-load path is the one that degrades to a text-only request
(`mediaType 'text'`, empty content) when the image fails to load. -/
theorem c8_media_failure_amended :
    (∀ content : List Nat, displayedMedia (codes "image") content true = some fallbackImageUrl) ∧
      (∀ url : List Nat, url ≠ [] → alertMountRequest (some url) true = ⟨codes "text", []⟩) := by
  constructor
  · intro content
    by_cases h : content.isEmpty
    · simp [displayedMedia, h]
      decide
    · simp [displayedMedia, h]
  · intro url h
    have : url.isEmpty = false := by simp [List.isEmpty_iff, h]
    simp [alertMountRequest, truthyOpt, this]

/-- C8 amended witness: the two failure paths at a concrete image URL. -/
theorem c8_media_failure_amended_witness :
    displayedMedia (codes "image") (codes "blob:img") true = some fallbackImageUrl ∧
      alertMountRequest (some (codes "blob:img")) true = ⟨codes "text", []⟩ :=
  ⟨c8_media_failure_amended.1 (codes "blob:img"),
   c8_media_failure_amended.2 (codes "blob:img") (by decide)⟩

/-- C9 counterexample: a blank (whitespace-only) app name has empty
normalized identity, yet `isAppInWhitelist` accepts it against any
non-empty whitelist: the raw-emptiness guard passes and the substring test
`normalizedWhitelistedApp.includes('')` is vacuously true. -/
theorem c9_blank_identity_counterexample :
    normalizeAppName (codes " ") = [] ∧
      isAppInWhitelist (codes " ") [codes "slack"] = true := by decide

/-- C9 amended: `isAppInWhitelist` rejects only a RAW-empty app name; a
non-empty raw name whose normalized identity is empty matches every entry
of a non-empty whitelist (the empty string is contained in anything). -/
theorem c9_empty_identity_amended :
    (∀ wl : List (List Nat), isAppInWhitelist [] wl = false) ∧
      (∀ (app : List Nat) (wl : List (List Nat)),
        app ≠ [] → normalizeAppName app = [] → wl ≠ [] →
        isAppInWhitelist app wl = true) := by
  constructor
  · intro wl
    simp [isAppInWhitelist]
  · intro app wl happ hnorm hwl
    have hne : app.isEmpty = false := by simp [List.isEmpty_iff, happ]
    obtain ⟨e, rest, rfl⟩ := List.exists_cons_of_ne_nil hwl
    simp only [isAppInWhitelist, hne, Bool.false_eq_true, if_false, List.any_cons, hnorm]
    have : entryMatches [] e = true := by
      simp [entryMatches, containsSub_nil]
    simp [this]

/-- C9 amended witness: both halves at concrete inputs. -/
theorem c9_empty_identity_amended_witness :
    isAppInWhitelist [] [codes "slack"] = false ∧
      isAppInWhitelist (codes " ") [codes "slack"] = true :=
  ⟨c9_empty_identity_amended.1 [codes "slack"],
   c9_empty_identity_amended.2 (codes " ") [codes "slack"] (by decide) (by decide) (by decide)⟩

/-- C10: a whitelist entry whose normalized form is empty (such as
`".exe"`, `".app"` or a whitespace-only entry) makes every non-empty app
name allowed: the substring test accepts the empty entry inside any
normalized name. -/
theorem c10_empty_entry_matches_everything (app : List Nat) (wl : List (List Nat))
    (e : List Nat) (happ : app ≠ []) (hmem : e ∈ wl)
    (hnorm : normalizeAppName e = []) :
    isAppInWhitelist app wl = true := by
  have hne : app.isEmpty = false := by simp [List.isEmpty_iff, happ]
  simp only [isAppInWhitelist, hne, Bool.false_eq_true, if_false]
  refine List.any_eq_true.mpr ⟨e, hmem, ?_⟩
  simp [entryMatches, hnorm, containsSub_nil]

/-- C10 witness: the entry `".exe"` normalizes to the empty string and
admits an arbitrary app. -/
theorem c10_empty_entry_matches_everything_witness :
    isAppInWhitelist (codes "randomgame") [codes ".exe"] = true :=
  c10_empty_entry_matches_everything (codes "randomgame") [codes ".exe"] (codes ".exe")
    (by decide) (by decide) (by decide)

/-- C3 counterexample: the immediate re-check when focus mode is enabled
applies NO self-exclusion, so enabling focus mode while the agent's own
(self-matching, non-whitelisted) window is foreground raises an alert for
it. -/
theorem c3_enable_raises_for_self_counterexample :
    isSelfApp (normalizeAppName (extractAppName winElectron)) = true ∧
      (runOps initialFocusState [.window winElectron, .toggle]).isFocusMode = true ∧
      (runOps initialFocusState [.window winElectron, .toggle]).showingAlert = true ∧
      (runOps initialFocusState [.window winElectron, .toggle]).currentAlertApp
        = some (codes "electron") := by decide

/-- C3 amended: only the sampler/monitor path applies the self-exclusion:
a window change to a self-matching app never raises an alert there, but it
leaves any active alert exactly as it was (it is not cleared); the direct
raise path of `toggleFocusMode` (and of `removeFromWhitelist`) performs no
self check. -/
theorem c3_self_exclusion_amended (s : FocusState) (w : WindowInput)
    (hself : isSelfApp (normalizeAppName (extractAppName w)) = true) :
    (stepOp s (.window w)).1.showingAlert = s.showingAlert ∧
      (stepOp s (.window w)).1.currentAlertApp = s.currentAlertApp ∧
      (stepOp s (.window w)).2 = [] := by
  simp only [stepOp, handleWindowChanged, monitorEffect]
  split
  · simp
  · simp [hself]

/-- C3 amended witness: a window change to the agent's own window while an
alert is active leaves the alert in place and raises nothing. -/
theorem c3_self_exclusion_amended_witness :
    (stepOp (runOps initialFocusState [.window winChrome, .toggle])
        (.window winElectron)).1.showingAlert
      = (runOps initialFocusState [.window winChrome, .toggle]).showingAlert ∧
      (stepOp (runOps initialFocusState [.window winChrome, .toggle])
          (.window winElectron)).1.currentAlertApp
        = (runOps initialFocusState [.window winChrome, .toggle]).currentAlertApp ∧
      (stepOp (runOps initialFocusState [.window winChrome, .toggle])
          (.window winElectron)).2 = [] :=
  c3_self_exclusion_amended (runOps initialFocusState [.window winChrome, .toggle])
    winElectron (by decide)

/-- C6 counterexample: `toggleFocusMode` runs `setLastNotifiedApp(null)` on
BOTH branches, so disabling focus mode resets `lastNotifiedApp` instead of
leaving it at its last observed value. -/
theorem c6_disable_resets_last_notified_counterexample :
    (runOps initialFocusState [.window winChrome, .toggle]).lastNotifiedApp
        = some (codes "chrome") ∧
      (runOps initialFocusState [.window winChrome, .toggle, .toggle]).lastNotifiedApp
        = none := by decide

/-- C6 amended: Disable sets `enabled = false`, clears the alert app and
dismisses any active alert, RESETS `lastNotifiedApp` to none, and leaves
`currentApp` (and the whitelist) unchanged. -/
theorem c6_disable_effects_amended (s : FocusState) (h : s.isFocusMode = true) :
    (stepOp s .toggle).1.isFocusMode = false ∧
      (stepOp s .toggle).1.showingAlert = false ∧
      (stepOp s .toggle).1.currentAlertApp = none ∧
      (stepOp s .toggle).1.lastNotifiedApp = none ∧
      (stepOp s .toggle).1.currentActiveApp = s.currentActiveApp ∧
      (stepOp s .toggle).1.whitelist = s.whitelist ∧
      (stepOp s .toggle).2 = [] := by
  obtain ⟨m, wl, dim, law, sa, caa, lna, cur, icw⟩ := s
  simp only at h
  subst h
  cases cur <;> simp [stepOp, toggleFocusMode, monitorEffect]

/-- C6 amended witness: disabling from an enabled state with a remembered
`lastNotifiedApp` and current app. -/
theorem c6_disable_effects_amended_witness :
    (stepOp (runOps initialFocusState [.window winChrome, .toggle]) .toggle).1.isFocusMode
        = false ∧
      (stepOp (runOps initialFocusState [.window winChrome, .toggle]) .toggle).1.showingAlert
        = false ∧
      (stepOp (runOps initialFocusState [.window winChrome, .toggle]) .toggle).1.currentAlertApp
        = none ∧
      (stepOp (runOps initialFocusState [.window winChrome, .toggle]) .toggle).1.lastNotifiedApp
        = none ∧
      (stepOp (runOps initialFocusState [.window winChrome, .toggle]) .toggle).1.currentActiveApp
        = (runOps initialFocusState [.window winChrome, .toggle]).currentActiveApp ∧
      (stepOp (runOps initialFocusState [.window winChrome, .toggle]) .toggle).1.whitelist
        = (runOps initialFocusState [.window winChrome, .toggle]).whitelist ∧
      (stepOp (runOps initialFocusState [.window winChrome, .toggle]) .toggle).2 = [] :=
  c6_disable_effects_amended (runOps initialFocusState [.window winChrome, .toggle]) (by decide)

/-- C7 counterexample: with whitelist `["lack"]` keeping the current app
`"slack"` allowed (substring match) and `lastNotifiedApp` still `"slack"`
from an earlier alert, `RemoveFromWhitelist("lack")` leaves the current app
in violation yet raises NO new alert: the handler's direct check compares
normalized names (`"slack" ≠ "lack"`) and the reactive re-check is
suppressed because `currentApp = lastNotifiedApp`. -/
theorem c7_remove_fuzzy_entry_counterexample :
    removeScenarioState.isFocusMode = true ∧
      removeScenarioState.currentActiveApp = some (codes "slack") ∧
      removeScenarioState.whitelist = [codes "lack"] ∧
      isAppInWhitelist (codes "slack") removeScenarioState.whitelist = true ∧
      removeScenarioState.showingAlert = false ∧
      isAppInWhitelist (codes "slack")
          (stepOp removeScenarioState (.remove (codes "lack"))).1.whitelist = false ∧
      (stepOp removeScenarioState (.remove (codes "lack"))).1.showingAlert = false ∧
      (stepOp removeScenarioState (.remove (codes "lack"))).2 = [] := by decide

/-- C7 amended: `removeFromWhitelist` does not re-evaluate the remaining
whitelist; its direct check raises exactly when the removed entry
normalizes like the (non-empty) current app.  When that holds and the
current app is indeed in violation afterwards, a new alert is raised for
it and `lastNotifiedApp` is set to it (covering the spec's own
remove-"slack" scenario); a fuzzily-matching entry whose removal causes a
violation raises a new alert only if `currentApp ≠ lastNotifiedApp` lets
the reactive re-check fire. -/
theorem c7_remove_direct_raise_amended (s : FocusState) (app cur : List Nat)
    (hfm : s.isFocusMode = true) (hcur : s.currentActiveApp = some cur)
    (hne : cur ≠ []) (hnorm : normalizeAppName cur = normalizeAppName app)
    (hviol : isAppInWhitelist cur (s.whitelist.filter (fun item => item != app)) = false) :
    (stepOp s (.remove app)).1.showingAlert = true ∧
      (stepOp s (.remove app)).1.currentAlertApp = some cur ∧
      (stepOp s (.remove app)).1.lastNotifiedApp = some cur ∧
      (stepOp s (.remove app)).2 = [cur] := by
  obtain ⟨m, wl, dim, law, sa, caa, lna, cura, icw⟩ := s
  simp only at hfm hcur
  subst hfm
  subst hcur
  have hemp : cur.isEmpty = false := by simp [List.isEmpty_iff, hne]
  simp only [stepOp, removeFromWhitelist, raiseAlert, monitorEffect, hemp, hnorm]
  simp only at hviol
  by_cases hself : isSelfApp (normalizeAppName cur) = true
  · simp [hemp, hnorm, hself, hviol]
  · simp [hemp, hnorm, hself, hviol]

/-- C7 amended witness: the spec's scenario — whitelist `["slack"]`,
current app `"slack"`, remove `"slack"` while enabled — raises the alert. -/
theorem c7_remove_direct_raise_amended_witness :
    (stepOp ⟨true, [codes "slack"], true, none, false, none, none,
        some (codes "slack"), true⟩ (.remove (codes "slack"))).1.showingAlert = true ∧
      (stepOp ⟨true, [codes "slack"], true, none, false, none, none,
          some (codes "slack"), true⟩ (.remove (codes "slack"))).1.currentAlertApp
        = some (codes "slack") ∧
      (stepOp ⟨true, [codes "slack"], true, none, false, none, none,
          some (codes "slack"), true⟩ (.remove (codes "slack"))).1.lastNotifiedApp
        = some (codes "slack") ∧
      (stepOp ⟨true, [codes "slack"], true, none, false, none, none,
          some (codes "slack"), true⟩ (.remove (codes "slack"))).2 = [codes "slack"] :=
  c7_remove_direct_raise_amended _ (codes "slack") (codes "slack") rfl rfl
    (by decide) rfl (by decide)

/-- The single-alert coupling: the alert flag is set exactly when an alert
app is recorded. -/
def alertCoupled (s : FocusState) : Prop :=
  s.showingAlert = s.currentAlertApp.isSome

/-- The monitor effect preserves the alert coupling. -/
theorem alertCoupled_monitorEffect (s : FocusState) (h : alertCoupled s) :
    alertCoupled (monitorEffect s).1 := by
  unfold alertCoupled at *
  simp only [monitorEffect, raiseAlert]
  repeat' split
  all_goals first | exact h | simp

/-- `toggleFocusMode` preserves the alert coupling. -/
theorem alertCoupled_toggleFocusMode (s : FocusState) (h : alertCoupled s) :
    alertCoupled (toggleFocusMode s).1 := by
  unfold alertCoupled at *
  simp only [toggleFocusMode, raiseAlert]
  repeat' split
  all_goals first | exact h | simp

/-- `addToWhitelist` preserves the alert coupling. -/
theorem alertCoupled_addToWhitelist (s : FocusState) (app : List Nat)
    (h : alertCoupled s) : alertCoupled (addToWhitelist s app).1 := by
  unfold alertCoupled at *
  simp only [addToWhitelist]
  repeat' split
  all_goals first | exact h | simp

/-- `removeFromWhitelist` preserves the alert coupling. -/
theorem alertCoupled_removeFromWhitelist (s : FocusState) (app : List Nat)
    (h : alertCoupled s) : alertCoupled (removeFromWhitelist s app).1 := by
  unfold alertCoupled at *
  simp only [removeFromWhitelist, raiseAlert]
  repeat' split
  all_goals first | exact h | simp

/-- Every operation preserves the alert coupling. -/
theorem alertCoupled_stepOp (s : FocusState) (op : FocusOp) (h : alertCoupled s) :
    alertCoupled (stepOp s op).1 := by
  cases op with
  | toggle =>
    simp only [stepOp]
    exact alertCoupled_monitorEffect _ (alertCoupled_toggleFocusMode s h)
  | window w =>
    simp only [stepOp]
    exact alertCoupled_monitorEffect _ (by simpa [alertCoupled, handleWindowChanged] using h)
  | add app =>
    simp only [stepOp]
    exact alertCoupled_monitorEffect _ (alertCoupled_addToWhitelist s app h)
  | remove app =>
    simp only [stepOp]
    exact alertCoupled_monitorEffect _ (alertCoupled_removeFromWhitelist s app h)
  | toggleDim =>
    simp only [stepOp]
    exact alertCoupled_monitorEffect _ (by simpa [alertCoupled] using h)
  | alertDismiss =>
    simp only [stepOp]
    exact alertCoupled_monitorEffect _ (by simp [alertCoupled, handleAlertDismiss])
  | notifDismiss d =>
    simp only [stepOp]
    refine alertCoupled_monitorEffect _ ?_
    unfold alertCoupled at *
    simp only [handleNotificationDismissed]
    repeat' split
    all_goals first | exact h | simp

/-- The alert coupling holds after every operation sequence from the
initial state. -/
theorem alertCoupled_runOps (ops : List FocusOp) :
    ∀ s : FocusState, alertCoupled s → alertCoupled (runOps s ops) := by
  induction ops with
  | nil => intro s h; exact h
  | cons op rest ih => intro s h; exact ih _ (alertCoupled_stepOp s op h)

/-- C1: for every sequence of state-machine operations from the initial
state, at most one alert is active at any point (the state tracks a single
alert slot, so the active-alert count is 0 or 1), and `currentAlertApp` is
non-none exactly when an alert is showing. -/
theorem c1_single_active_alert (ops : List FocusOp) :
    ((runOps initialFocusState ops).showingAlert = true ↔
        (runOps initialFocusState ops).currentAlertApp ≠ none) ∧
      (if (runOps initialFocusState ops).showingAlert then 1 else 0) ≤ 1 := by
  have h := alertCoupled_runOps ops initialFocusState rfl
  unfold alertCoupled at h
  constructor
  · rw [h]
    exact Option.isSome_iff_ne_none
  · split <;> simp

/-- ASCII lower-casing is idempotent on one code point. -/
theorem asciiLower_idem (c : Nat) : asciiLower (asciiLower c) = asciiLower c := by
  unfold asciiLower
  split
  · next h => rw [if_neg (by omega)]
  · rfl

/-- A list all of whose members are fixed by a function is fixed by `map`. -/
theorem map_eq_self_of_fixed {f : Nat → Nat} :
    ∀ {s : List Nat}, (∀ c ∈ s, f c = c) → s.map f = s := by
  intro s
  induction s with
  | nil => intro _; rfl
  | cons a t ih =>
    intro h
    simp only [List.map_cons, h a (List.mem_cons_self a t), List.cons.injEq, true_and]
    exact ih (fun c hc => h c (List.mem_cons_of_mem a hc))

/-- Every member of a mapped-lower list is fixed by `asciiLower`. -/
theorem mem_map_asciiLower_fixed (s : List Nat) :
    ∀ c ∈ s.map asciiLower, asciiLower c = c := by
  intro c hc
  obtain ⟨d, _, rfl⟩ := List.mem_map.mp hc
  exact asciiLower_idem d

/-- `stripSuffix` only keeps characters of its input. -/
theorem stripSuffix_subset (suf s : List Nat) : ∀ c ∈ stripSuffix suf s, c ∈ s := by
  unfold stripSuffix
  split
  · intro c hc
    exact List.take_subset _ _ hc
  · intro c hc
    exact hc

/-- Characters of `collapseWs s` are either the space 32 or characters of `s`. -/
theorem collapseWs_mem (s : List Nat) : ∀ c ∈ collapseWs s, c = 32 ∨ c ∈ s := by
  induction s using collapseWs.induct with
  | case1 => simp [collapseWs]
  | case2 c hc =>
    intro x hx
    simp only [collapseWs, hc, if_true] at hx
    simp at hx
    simp [hx]
  | case3 c hc =>
    intro x hx
    simp only [collapseWs, hc, if_false] at hx
    simp at hx
    simp [hx]
  | case4 c d rest hcd ih =>
    intro x hx
    rw [collapseWs, if_pos hcd] at hx
    rcases ih x hx with h32 | hmem
    · exact Or.inl h32
    · exact Or.inr (List.mem_cons_of_mem c hmem)
  | case5 c d rest hcd ih =>
    intro x hx
    rw [collapseWs, if_neg hcd] at hx
    rcases List.mem_cons.mp hx with hx0 | hx1
    · subst hx0
      split
      · exact Or.inl rfl
      · exact Or.inr (List.mem_cons_self _ _)
    · rcases ih x hx1 with h32 | hmem
      · exact Or.inl h32
      · exact Or.inr (List.mem_cons_of_mem c hmem)

/-- `trimRight` only keeps characters of its input. -/
theorem trimRight_subset (s : List Nat) : ∀ c ∈ trimRight s, c ∈ s := by
  induction s with
  | nil => simp [trimRight]
  | cons a t ih =>
    intro c hc
    simp only [trimRight] at hc
    split at hc
    · split at hc
      · simp at hc
      · simp at hc
        simp [hc]
    · rcases List.mem_cons.mp hc with h0 | h1
      · simp [h0]
      · exact List.mem_cons_of_mem a (ih c h1)

/-- Every character of a normalized name is fixed by `asciiLower`. -/
theorem normalizeAppName_lower_fixed (s : List Nat) :
    ∀ c ∈ normalizeAppName s, asciiLower c = c := by
  intro c hc
  unfold normalizeAppName trimWs at hc
  have hc2 : c ∈ (collapseWs (stripSuffix appSuf (stripSuffix exeSuf
      (s.map asciiLower)))).dropWhile isWsChar := trimRight_subset _ c hc
  have hc3 : c ∈ collapseWs (stripSuffix appSuf (stripSuffix exeSuf (s.map asciiLower))) :=
    (List.dropWhile_sublist _).subset hc2
  rcases collapseWs_mem _ c hc3 with h32 | hc4
  · subst h32
    decide
  · have hc5 := stripSuffix_subset _ _ c hc4
    have hc6 := stripSuffix_subset _ _ c hc5
    exact mem_map_asciiLower_fixed s c hc6

/-- Lower-casing a normalized name is the identity. -/
theorem map_asciiLower_normalizeAppName (s : List Nat) :
    (normalizeAppName s).map asciiLower = normalizeAppName s :=
  map_eq_self_of_fixed (normalizeAppName_lower_fixed s)

/-- `collapseWs (d :: rest)` starts with `d` (or 32 if `d` is whitespace). -/
theorem collapseWs_cons_head (rest : List Nat) :
    ∀ d : Nat, ∃ t, collapseWs (d :: rest) = (if isWsChar d then 32 else d) :: t := by
  induction rest with
  | nil =>
    intro d
    unfold collapseWs
    split
    · exact ⟨[], rfl⟩
    · exact ⟨[], rfl⟩
  | cons e rs ih =>
    intro d
    by_cases hde : (isWsChar d && isWsChar e) = true
    · rw [collapseWs, if_pos hde]
      obtain ⟨t, ht⟩ := ih e
      refine ⟨t, ?_⟩
      rw [ht]
      have hd : isWsChar d = true := by
        cases h1 : isWsChar d <;> simp [h1] at hde ⊢
      have he : isWsChar e = true := by
        cases h1 : isWsChar e <;> simp [h1] at hde ⊢
      simp [hd, he]
    · rw [collapseWs, if_neg hde]
      exact ⟨collapseWs (e :: rs), rfl⟩

/-- `collapseWs` of a list headed by whitespace starts with 32. -/
theorem collapseWs_cons_head_ws (rest : List Nat) (d : Nat) (hd : isWsChar d = true) :
    ∃ t, collapseWs (d :: rest) = 32 :: t := by
  obtain ⟨t, ht⟩ := collapseWs_cons_head rest d
  rw [hd] at ht
  exact ⟨t, by simpa using ht⟩

/-- `collapseWs` of a list headed by non-whitespace keeps that head. -/
theorem collapseWs_cons_head_not (rest : List Nat) (d : Nat) (hd : isWsChar d = false) :
    ∃ t, collapseWs (d :: rest) = d :: t := by
  obtain ⟨t, ht⟩ := collapseWs_cons_head rest d
  rw [hd] at ht
  exact ⟨t, by simpa using ht⟩

/-- The collapsed form has no two adjacent whitespace characters. -/
theorem noAdjWs_collapseWs (s : List Nat) : noAdjWs (collapseWs s) = true := by
  induction s using collapseWs.induct with
  | case1 => rfl
  | case2 c hc => simp [collapseWs, hc, noAdjWs]
  | case3 c hc => simp [collapseWs, hc, noAdjWs]
  | case4 c d rest hcd ih => rw [collapseWs, if_pos hcd]; exact ih
  | case5 c d rest hcd ih =>
    rw [collapseWs, if_neg hcd]
    by_cases hcw : isWsChar c = true
    · have hd : isWsChar d = false := by
        cases hdd : isWsChar d
        · rfl
        · exact absurd (by rw [hcw, hdd, Bool.and_self]) hcd
      obtain ⟨t, ht⟩ := collapseWs_cons_head_not rest d hd
      rw [ht] at ih ⊢
      rw [hcw]
      simp only [if_true, noAdjWs, Bool.and_eq_true]
      refine ⟨?_, ih⟩
      simp [hd]
    · have hc2 : isWsChar c = false := by
        cases h1 : isWsChar c
        · rfl
        · exact absurd h1 hcw
      obtain ⟨t, ht⟩ := collapseWs_cons_head rest d
      rw [ht] at ih ⊢
      rw [hc2]
      simp only [if_false, noAdjWs, Bool.and_eq_true]
      refine ⟨?_, ih⟩
      simp [hc2]

/-- Whitespace in the collapsed form is only the plain space 32. -/
theorem wsOnly32_collapseWs (s : List Nat) : wsOnly32 (collapseWs s) = true := by
  induction s using collapseWs.induct with
  | case1 => rfl
  | case2 c hc => simp [collapseWs, hc, wsOnly32]
  | case3 c hc => simp [collapseWs, hc, wsOnly32, List.all_cons]
  | case4 c d rest hcd ih => rw [collapseWs, if_pos hcd]; exact ih
  | case5 c d rest hcd ih =>
    rw [collapseWs, if_neg hcd]
    unfold wsOnly32 at ih ⊢
    rw [List.all_cons, Bool.and_eq_true]
    refine ⟨?_, ih⟩
    by_cases hcw : isWsChar c = true
    · simp [hcw]
    · have hc2 : isWsChar c = false := by
        cases h1 : isWsChar c
        · rfl
        · exact absurd h1 hcw
      simp [hc2]

/-- `noAdjWs` passes to the tail. -/
theorem noAdjWs_tail (c : Nat) (t : List Nat) (h : noAdjWs (c :: t) = true) :
    noAdjWs t = true := by
  cases t with
  | nil => rfl
  | cons d rs =>
    rw [noAdjWs, Bool.and_eq_true] at h
    exact h.2

/-- A list with no adjacent whitespace and only plain spaces is fixed by
`collapseWs`. -/
theorem collapseWs_eq_self (s : List Nat) (h1 : noAdjWs s = true)
    (h2 : wsOnly32 s = true) : collapseWs s = s := by
  induction s using collapseWs.induct with
  | case1 => rfl
  | case2 c hc =>
    unfold wsOnly32 at h2
    rw [List.all_cons, Bool.and_eq_true] at h2
    have : c = 32 := by
      rcases h2 with ⟨h2a, _⟩
      rw [hc] at h2a
      simpa using h2a
    simp [collapseWs, hc, this]
  | case3 c hc => simp [collapseWs, hc]
  | case4 c d rest hcd ih =>
    exfalso
    rw [noAdjWs, Bool.and_eq_true] at h1
    rcases h1 with ⟨h1a, _⟩
    rw [hcd] at h1a
    simp at h1a
  | case5 c d rest hcd ih =>
    rw [collapseWs, if_neg hcd]
    have htl : collapseWs (d :: rest) = d :: rest := by
      refine ih (noAdjWs_tail c _ h1) ?_
      unfold wsOnly32 at h2 ⊢
      rw [List.all_cons, Bool.and_eq_true] at h2
      exact h2.2
    rw [htl]
    by_cases hcw : isWsChar c = true
    · have : c = 32 := by
        unfold wsOnly32 at h2
        rw [List.all_cons, Bool.and_eq_true] at h2
        rcases h2 with ⟨h2a, _⟩
        rw [hcw] at h2a
        simpa using h2a
      simp [hcw, this]
    · have hc2 : isWsChar c = false := by
        cases h1c : isWsChar c
        · rfl
        · exact absurd h1c hcw
      simp [hc2]

/-- Dropping a whitespace prefix preserves `noAdjWs`. -/
theorem noAdjWs_dropWhile (s : List Nat) (h : noAdjWs s = true) :
    noAdjWs (s.dropWhile isWsChar) = true := by
  induction s with
  | nil => rfl
  | cons c t ih =>
    rw [List.dropWhile_cons]
    split
    · exact ih (noAdjWs_tail c t h)
    · exact h

/-- `wsOnly32` is inherited by any subset of characters. -/
theorem wsOnly32_of_subset {t s : List Nat} (hsub : ∀ c ∈ t, c ∈ s)
    (h : wsOnly32 s = true) : wsOnly32 t = true := by
  unfold wsOnly32 at *
  rw [List.all_eq_true] at *
  intro c hc
  exact h c (hsub c hc)

/-- `trimRight` preserves `noAdjWs`. -/
theorem noAdjWs_trimRight (s : List Nat) (h : noAdjWs s = true) :
    noAdjWs (trimRight s) = true := by
  induction s with
  | nil => rfl
  | cons c t ih =>
    simp only [trimRight]
    split
    · split
      · rfl
      · rfl
    · next hne =>
      have htl := ih (noAdjWs_tail c t h)
      cases t with
      | nil => simp [trimRight] at hne
      | cons d rs =>
        rcases htr : trimRight (d :: rs) with _ | ⟨x, xs⟩
        · rw [htr] at hne
          simp at hne
        · have hx : x = d := by
            have : trimRight (d :: rs) = [] ∨ ∃ u, trimRight (d :: rs) = d :: u := by
              simp only [trimRight]
              split
              · split
                · exact Or.inl rfl
                · exact Or.inr ⟨[], rfl⟩
              · exact Or.inr ⟨_, rfl⟩
            rcases this with h0 | ⟨u, hu⟩
            · rw [h0] at htr
              exact absurd htr.symm (by simp)
            · rw [hu] at htr
              exact (List.cons.injEq _ _ _ _ ▸ htr).1.symm ▸ rfl
          rw [htr] at htl
          subst hx
          rw [noAdjWs, Bool.and_eq_true]
          constructor
          · rw [noAdjWs, Bool.and_eq_true] at h
            exact h.1
          · exact htl

/-- `trimRight (c :: t)` is empty or starts with `c`. -/
theorem trimRight_cons_structure (c : Nat) (t : List Nat) :
    trimRight (c :: t) = [] ∨ ∃ u, trimRight (c :: t) = c :: u := by
  simp only [trimRight]
  split
  · split
    · exact Or.inl rfl
    · exact Or.inr ⟨[], rfl⟩
  · exact Or.inr ⟨_, rfl⟩

/-- `trimRight` is idempotent. -/
theorem trimRight_idem (l : List Nat) : trimRight (trimRight l) = trimRight l := by
  induction l with
  | nil => rfl
  | cons c t ih =>
    simp only [trimRight]
    split
    · split
      · rfl
      · next hcw =>
        simp only [trimRight, List.isEmpty_nil, if_pos]
        simp [hcw]
    · next hne =>
      simp only [trimRight, ih]
      rw [if_neg hne]

/-- The whitespace-prefix drop is already done after a `trimWs`. -/
theorem dropWhile_after_trimWs (l : List Nat) :
    (trimWs l).dropWhile isWsChar = trimWs l := by
  unfold trimWs
  rcases hd : l.dropWhile isWsChar with _ | ⟨c, t⟩
  · rfl
  · have hc : isWsChar c = false := by
      have := List.head?_dropWhile_not isWsChar l
      rw [hd] at this
      simpa using this
    rcases trimRight_cons_structure c t with h0 | ⟨u, hu⟩
    · rw [h0]
      rfl
    · rw [hu, List.dropWhile_cons, hc]
      simp

/-- `trimWs` is idempotent. -/
theorem trimWs_idem (l : List Nat) : trimWs (trimWs l) = trimWs l := by
  conv_lhs => rw [trimWs]
  rw [dropWhile_after_trimWs]
  unfold trimWs
  exact trimRight_idem _

/-- A collapsed-then-trimmed string is fixed by `collapseWs`. -/
theorem collapseWs_trimWs_collapseWs (z : List Nat) :
    collapseWs (trimWs (collapseWs z)) = trimWs (collapseWs z) := by
  refine collapseWs_eq_self _ ?_ ?_
  · exact noAdjWs_trimRight _ (noAdjWs_dropWhile _ (noAdjWs_collapseWs z))
  · refine wsOnly32_of_subset ?_ (wsOnly32_collapseWs z)
    intro c hc
    exact (List.dropWhile_sublist _).subset (trimRight_subset _ c hc)

/-- C2 counterexample: `normalizeAppName` is not idempotent: suffix
stripping is single-pass (`.exe` before `.app`), so `"x.exe.app"`
normalizes to `"x.exe"`, which a second normalization shrinks to `"x"`. -/
theorem c2_normalize_not_idempotent_counterexample :
    normalizeAppName (normalizeAppName (codes "x.exe.app"))
      ≠ normalizeAppName (codes "x.exe.app") := by decide

/-- C2 amended: `normalizeAppName` is total (it is a function on all
strings) and idempotent on every input whose normalized form does not end
in `".exe"` or `".app"` — the failures are exactly the single-pass suffix
strips (`"x.exe.app"`, or a suffix re-exposed by trimming as in
`"x.exe "`). -/
theorem c2_normalize_conditional_idempotent (s : List Nat)
    (h1 : exeSuf.isSuffixOf (normalizeAppName s) = false)
    (h2 : appSuf.isSuffixOf (normalizeAppName s) = false) :
    normalizeAppName (normalizeAppName s) = normalizeAppName s := by
  have hcol : collapseWs (normalizeAppName s) = normalizeAppName s := by
    unfold normalizeAppName
    exact collapseWs_trimWs_collapseWs _
  have htrim : trimWs (normalizeAppName s) = normalizeAppName s := by
    unfold normalizeAppName
    exact trimWs_idem _
  have hexe : stripSuffix exeSuf (normalizeAppName s) = normalizeAppName s := by
    unfold stripSuffix
    rw [if_neg]
    simp [h1]
  have happ : stripSuffix appSuf (normalizeAppName s) = normalizeAppName s := by
    unfold stripSuffix
    rw [if_neg]
    simp [h2]
  conv_lhs => rw [normalizeAppName]
  rw [map_asciiLower_normalizeAppName, hexe, happ, hcol, htrim]

/-- C2 amended witness: a normalized form with no residual suffix is a
fixpoint. -/
theorem c2_normalize_conditional_idempotent_witness :
    normalizeAppName (normalizeAppName (codes "Slack.exe"))
      = normalizeAppName (codes "Slack.exe") :=
  c2_normalize_conditional_idempotent (codes "Slack.exe") (by decide) (by decide)
